import Mathlib

/-!
Shallow embedding of `swimmeet_scraper/scraper.py` (the adaptive
response-parsing pipeline of the swim_times repository) and proofs about
it.  Text is modelled as `List Char`, raw bytes as `List Nat`.  Each
definition mirrors a specific function or code region of the source; the
doc comment of a definition names the source it embeds.
-/

abbrev Str := List Char

/-- Lowercasing of a Python string via `str.lower()`, restricted to the
ASCII texts the scraper handles (`Char.toLower` agrees with Python on
ASCII). Mirrors uses of `.lower()` in `_parse_payload` and
`_parse_xml_content`. -/
def toLowerStr (s : Str) : Str := s.map Char.toLower

/-- Python substring membership `pat in s`: some index of `s` starts an
occurrence of `pat`. -/
def strContains (s pat : Str) : Bool :=
  (List.range (s.length + 1)).any (fun i => List.isPrefixOf pat (s.drop i))

/-- Characters stripped by Python `str.strip()` / `str.lstrip()` with no
argument (ASCII whitespace subset). -/
def isPyWs (c : Char) : Bool :=
  c == ' ' || c == '\t' || c == '\n' || c == '\r' || c == '\x0b' || c == '\x0c'

/-- Python `str.lstrip()`. -/
def lstripWs (s : Str) : Str := s.dropWhile isPyWs

/-- Python `str.strip()`. -/
def stripWs (s : Str) : Str := ((s.dropWhile isPyWs).reverse.dropWhile isPyWs).reverse

/-- Case-insensitive prefix test: `pat` (already lowercase) begins the
lowercasing of `s`. -/
def isPrefixCI (pat s : Str) : Bool := List.isPrefixOf pat (toLowerStr s)

/-- Index of the first case-insensitive occurrence of `pat` (already
lowercase) in `s`, if any. -/
def findCI (pat s : Str) : Option Nat :=
  (List.range (s.length + 1)).find? (fun i => isPrefixCI pat (s.drop i))

/-- An XML element as produced by `xml.etree.ElementTree`: a tag, an
ordered attribute list, and child elements (character data is not needed
by the scraper, which reads only tags and attributes). -/
inductive XElem : Type where
  | mk : Str → List (Str × Str) → List XElem → XElem

/-- Tag of an element (`Element.tag`). -/
def XElem.tag : XElem → Str
  | XElem.mk t _ _ => t

/-- Attribute list of an element (`Element.attrib`, in document order,
matching Python dict insertion order). -/
def XElem.attrib : XElem → List (Str × Str)
  | XElem.mk _ a _ => a

/-- Children of an element. -/
def XElem.children : XElem → List XElem
  | XElem.mk _ _ cs => cs

mutual

/-- All strict descendants of an element in document (preorder) order:
the elements `root.findall(".//tag")` iterates over before filtering by
tag.  The root itself is not a descendant. -/
def descendants : XElem → List XElem
  | XElem.mk _ _ cs => descList cs

/-- Preorder listing of a forest: each tree's root followed by its
descendants. -/
def descList : List XElem → List XElem
  | [] => []
  | c :: rest => c :: (descendants c ++ descList rest)

end

/-- Name characters accepted in tags and attribute names by the XML
parser model. -/
def isNameChar (c : Char) : Bool :=
  c.isAlphanum || c == '_' || c == '-' || c == ':' || c == '.'

/-- XML whitespace. -/
def isXmlWs (c : Char) : Bool := c == ' ' || c == '\t' || c == '\n' || c == '\r'

/-- Skip XML whitespace. -/
def skipWs (s : Str) : Str := s.dropWhile isXmlWs

/-- Attribute-list parsing for the `ElementTree.fromstring` model:
reads `name="value"` / `name='value'` pairs until a character that is not
a name start, returning the pairs in document order with the rest of the
input.  `none` models a parse error. -/
def parseAttrs : Nat → Str → Option (List (Str × Str) × Str)
  | 0, _ => none
  | fuel + 1, s =>
    let s1 := skipWs s
    match s1 with
    | [] => some ([], s1)
    | c :: _ =>
      if isNameChar c then
        let name := s1.takeWhile isNameChar
        let s2 := skipWs (s1.drop name.length)
        match s2 with
        | '=' :: s3 =>
          let s4 := skipWs s3
          match s4 with
          | q :: s5 =>
            if q == '"' || q == '\'' then
              let v := s5.takeWhile (fun c2 => ¬ (c2 == q))
              match s5.drop v.length with
              | _ :: s6 =>
                match parseAttrs fuel s6 with
                | some (attrs, rest) => some ((name, v) :: attrs, rest)
                | none => none
              | [] => none
            else none
          | [] => none
        | _ => none
      else some ([], s1)

mutual

/-- One element, for the `ElementTree.fromstring` model: `<name attrs/>`
or `<name attrs> content </name>`.  Returns the element and the remaining
input; `none` models `ElementTree.ParseError`. -/
def parseElem : Nat → Str → Option (XElem × Str)
  | 0, _ => none
  | fuel + 1, s =>
    match skipWs s with
    | '<' :: s1 =>
      let name := s1.takeWhile isNameChar
      if name.isEmpty then none
      else
        match parseAttrs (s1.length + 1) (s1.drop name.length) with
        | none => none
        | some (attrs, s2) =>
          match skipWs s2 with
          | '/' :: '>' :: s3 => some (XElem.mk name attrs [], s3)
          | '>' :: s3 =>
            match parseContent fuel s3 name with
            | some (kids, s4) => some (XElem.mk name attrs kids, s4)
            | none => none
          | _ => none
    | _ => none

/-- Element content up to the matching close tag `</name>`: child
elements are collected in order, character data is skipped (the scraper
never reads it). -/
def parseContent : Nat → Str → Str → Option (List XElem × Str)
  | 0, _, _ => none
  | fuel + 1, s, name =>
    let s1 := s.dropWhile (fun c => ¬ (c == '<'))
    match s1 with
    | '<' :: '/' :: s2 =>
      let cname := s2.takeWhile isNameChar
      if cname = name then
        match skipWs (s2.drop cname.length) with
        | '>' :: s3 => some ([], s3)
        | _ => none
      else none
    | '<' :: _ =>
      match parseElem fuel s1 with
      | some (child, s3) =>
        match parseContent fuel s3 name with
        | some (kids, s4) => some (child :: kids, s4)
        | none => none
      | none => none
    | _ => none

end

/-- Model of `ElementTree.fromstring`, restricted to the element subset
the scraper feeds it (nested elements with quoted attributes; no
declarations, comments, or entity references).  `none` models
`ElementTree.ParseError`; trailing non-whitespace after the document
element is an error, as in ElementTree. -/
def xmlFromString (s : Str) : Option XElem :=
  match parseElem (2 * s.length + 2) s with
  | some (root, rest) => if (skipWs rest).isEmpty then some root else none
  | none => none

/-- Literal `"<html"` checked by `_parse_xml_content` line 128. -/
def htmlLit : Str := "<html".data

/-- Literal `"<results"`, the opening of the regex
`(<results[^>]*>.*?</results>)` of `_parse_xml_content` line 132. -/
def resultsOpenLit : Str := "<results".data

/-- Literal `"</results>"`, the closing of that regex. -/
def resultsCloseLit : Str := "</results>".data

/-- Match of the regex `(<results[^>]*>.*?</results>)` (IGNORECASE,
DOTALL) anchored at index `i` of `text`: `<results`, then the greedy run
of non-`>` up to the first `>`, then the non-greedy `.*?` up to the
earliest `</results>`.  Returns the matched substring. -/
def matchResultsAt (text : Str) (i : Nat) : Option Str :=
  let t := text.drop i
  if isPrefixCI resultsOpenLit t then
    let afterOpen := t.drop resultsOpenLit.length
    let attrsRun := afterOpen.takeWhile (fun c => ¬ (c == '>'))
    match afterOpen.drop attrsRun.length with
    | '>' :: rest =>
      match findCI resultsCloseLit rest with
      | some j =>
        some (t.take (resultsOpenLit.length + attrsRun.length + 1 + j +
          resultsCloseLit.length))
      | none => none
    | _ => none
  else none

/-- `re.search(r"(<results[^>]*>.*?</results>)", text, IGNORECASE | DOTALL)`
from `_parse_xml_content` line 132: the leftmost-starting match wins. -/
def searchResultsBlock (text : Str) : Option Str :=
  (List.range (text.length + 1)).findSome? (matchResultsAt text)

/-- Error taxonomy: one constructor per distinct `SwimMeetScraperError`
message raised in the parsing pipeline. -/
inductive Err : Type where
  | gotHtml
  | invalidXml
  | emptyPayload
  | notValidJson
  | jsonNotListOrDict
  | rowNotMapping
  | csvMissingHeaders
deriving DecidableEq, Repr

/-- The document text `_parse_xml_content` selects for parsing (line
133): the regex match when present, else the whole stripped text. -/
def selectXmlText (text : Str) : Str :=
  match searchResultsBlock text with
  | some s => s
  | none => stripWs text

/-- Literal tag `"result"` used by `root.findall(".//result")` (an exact,
case-sensitive tag match in ElementTree). -/
def resultLit : Str := "result".data

/-- The rows `_parse_xml_content` collects (lines 140-142): attribute
dicts of the strict descendants of the root whose tag is exactly
`result`, in document order. -/
def resultRows (root : XElem) : List (List (Str × Str)) :=
  ((descendants root).filter (fun e => e.tag = resultLit)).map XElem.attrib

/-- Embedding of `SwimMeetScraper._parse_xml_content` (scraper.py lines
126-147): bail with an error on any text containing `<html`
(case-insensitive); otherwise select the `<results>...</results>` block
or the stripped text, parse it as XML, collect `result`-tagged
descendants' attributes, and fail if none were found. -/
def parseXmlContent (text : Str) : Except Err (List (List (Str × Str))) :=
  if strContains (toLowerStr text) htmlLit then Except.error Err.gotHtml
  else
    match xmlFromString (selectXmlText text) with
    | none => Except.error Err.invalidXml
    | some root =>
      let rows := resultRows root
      if rows.isEmpty then Except.error Err.emptyPayload
      else Except.ok rows

/-- A JSON value as produced by Python `json.loads`, with numbers
restricted to the integers (no claim touches fractional numbers) and
object fields kept in document order (Python dict insertion order; for
duplicate keys `json.loads` keeps the last occurrence, which `objLookup`
honours). -/
inductive JsonVal : Type where
  | null : JsonVal
  | bool : Bool → JsonVal
  | num : Int → JsonVal
  | str : Str → JsonVal
  | arr : List JsonVal → JsonVal
  | obj : List (Str × JsonVal) → JsonVal

/-- A result row of `_parse_payload`: a string-keyed mapping in
insertion order (Python `Dict[str, Any]`). -/
abbrev Row := List (Str × JsonVal)

/-- Python dict lookup `parsed["results"]` on a `json.loads` object:
the last binding of the key wins (duplicate JSON keys collapse to the
last). -/
def objLookup (fields : List (Str × JsonVal)) (key : Str) : Option JsonVal :=
  ((fields.reverse).find? (fun kv => kv.fst == key)).map Prod.snd

/-- Embedding of `SwimMeetScraper._ensure_row_dict` (scraper.py lines
149-152): a non-mapping row is an error; for a mapping, Python's
`{str(key): value ...}` re-keying is the identity because `json.loads`
object keys are already `str`. -/
def ensureRowDict : JsonVal → Except Err Row
  | JsonVal.obj fields => Except.ok fields
  | _ => Except.error Err.rowNotMapping

/-- The list comprehension `[self._ensure_row_dict(item) for item in l]`:
elements are converted in order and the first raised error aborts the
whole batch. -/
def ensureAll : List JsonVal → Except Err (List Row)
  | [] => Except.ok []
  | x :: xs =>
    match ensureRowDict x with
    | Except.error e => Except.error e
    | Except.ok r =>
      match ensureAll xs with
      | Except.error e => Except.error e
      | Except.ok rs => Except.ok (r :: rs)

/-- Literal key `"results"` of `_parse_payload` line 113. -/
def resultsKey : Str := "results".data

/-- Embedding of the JSON shape dispatch of `_parse_payload` (scraper.py
lines 112-118), applied to the already-parsed JSON value: an object with
a `results` list uses that list as the row source; any other object is a
single-row batch; a top-level array is the row source; anything else is
an error. -/
def jsonBranch : JsonVal → Except Err (List Row)
  | JsonVal.obj fields =>
    (match objLookup fields resultsKey with
     | some (JsonVal.arr items) => ensureAll items
     | _ =>
       match ensureRowDict (JsonVal.obj fields) with
       | Except.ok r => Except.ok [r]
       | Except.error e => Except.error e)
  | JsonVal.arr items => ensureAll items
  | _ => Except.error Err.jsonNotListOrDict

/-- Whitespace skipped by the JSON grammar. -/
def jsonSkipWs (s : Str) : Str :=
  s.dropWhile (fun c => c == ' ' || c == '\t' || c == '\n' || c == '\r')

/-- JSON string body after the opening quote, with the basic escapes the
scraper's inputs can contain (`\"`, `\\`, `\/`, `\n`, `\t`, `\r`);
returns the decoded characters and the input after the closing quote. -/
def jsonParseStr : Nat → Str → Option (Str × Str)
  | 0, _ => none
  | fuel + 1, s =>
    match s with
    | '"' :: rest => some ([], rest)
    | '\\' :: c :: rest =>
      let esc := if c == 'n' then '\n' else if c == 't' then '\t'
        else if c == 'r' then '\r' else c
      (jsonParseStr fuel rest).map (fun pr => (esc :: pr.fst, pr.snd))
    | c :: rest => (jsonParseStr fuel rest).map (fun pr => (c :: pr.fst, pr.snd))
    | [] => none

/-- Decimal digit run to a natural number. -/
def digitsToNat (ds : Str) : Nat := ds.foldl (fun a c => a * 10 + (c.toNat - 48)) 0

mutual

/-- One JSON value, for the `json.loads` model. -/
def jsonParseVal : Nat → Str → Option (JsonVal × Str)
  | 0, _ => none
  | fuel + 1, s =>
    match jsonSkipWs s with
    | '{' :: rest => jsonParseObj fuel rest
    | '[' :: rest => jsonParseArr fuel rest
    | '"' :: rest => (jsonParseStr (rest.length + 1) rest).map
        (fun pr => (JsonVal.str pr.fst, pr.snd))
    | 't' :: 'r' :: 'u' :: 'e' :: rest => some (JsonVal.bool true, rest)
    | 'f' :: 'a' :: 'l' :: 's' :: 'e' :: rest => some (JsonVal.bool false, rest)
    | 'n' :: 'u' :: 'l' :: 'l' :: rest => some (JsonVal.null, rest)
    | '-' :: rest =>
      let ds := rest.takeWhile Char.isDigit
      if ds.isEmpty then none
      else some (JsonVal.num (-(digitsToNat ds : Int)), rest.drop ds.length)
    | c :: rest =>
      if c.isDigit then
        let ds := (c :: rest).takeWhile Char.isDigit
        some (JsonVal.num (digitsToNat ds : Int), (c :: rest).drop ds.length)
      else none
    | [] => none

/-- JSON array elements after the opening bracket. -/
def jsonParseArr : Nat → Str → Option (JsonVal × Str)
  | 0, _ => none
  | fuel + 1, s =>
    match jsonSkipWs s with
    | ']' :: rest => some (JsonVal.arr [], rest)
    | _ =>
      match jsonParseVal fuel s with
      | none => none
      | some (v, s2) =>
        match jsonParseArrRest fuel s2 with
        | some (JsonVal.arr vs, rest) => some (JsonVal.arr (v :: vs), rest)
        | _ => none

/-- Remaining JSON array elements: a comma and another element, or the
closing bracket. -/
def jsonParseArrRest : Nat → Str → Option (JsonVal × Str)
  | 0, _ => none
  | fuel + 1, s =>
    match jsonSkipWs s with
    | ']' :: rest => some (JsonVal.arr [], rest)
    | ',' :: rest =>
      match jsonParseVal fuel rest with
      | none => none
      | some (v, s2) =>
        match jsonParseArrRest fuel s2 with
        | some (JsonVal.arr vs, rest2) => some (JsonVal.arr (v :: vs), rest2)
        | _ => none
    | _ => none

/-- JSON object members after the opening brace. -/
def jsonParseObj : Nat → Str → Option (JsonVal × Str)
  | 0, _ => none
  | fuel + 1, s =>
    match jsonSkipWs s with
    | '}' :: rest => some (JsonVal.obj [], rest)
    | '"' :: rest =>
      match jsonParseStr (rest.length + 1) rest with
      | none => none
      | some (key, s2) =>
        match jsonSkipWs s2 with
        | ':' :: s3 =>
          match jsonParseVal fuel s3 with
          | none => none
          | some (v, s4) =>
            match jsonParseObjRest fuel s4 with
            | some (JsonVal.obj kvs, rest2) =>
              some (JsonVal.obj ((key, v) :: kvs), rest2)
            | _ => none
        | _ => none
    | _ => none

/-- Remaining JSON object members: a comma and another member, or the
closing brace. -/
def jsonParseObjRest : Nat → Str → Option (JsonVal × Str)
  | 0, _ => none
  | fuel + 1, s =>
    match jsonSkipWs s with
    | '}' :: rest => some (JsonVal.obj [], rest)
    | ',' :: rest =>
      match jsonSkipWs rest with
      | '"' :: rest2 =>
        match jsonParseStr (rest2.length + 1) rest2 with
        | none => none
        | some (key, s2) =>
          match jsonSkipWs s2 with
          | ':' :: s3 =>
            match jsonParseVal fuel s3 with
            | none => none
            | some (v, s4) =>
              match jsonParseObjRest fuel s4 with
              | some (JsonVal.obj kvs, rest3) =>
                some (JsonVal.obj ((key, v) :: kvs), rest3)
              | _ => none
          | _ => none
      | _ => none
    | _ => none

end

/-- Model of `json.loads` (scraper.py line 108), restricted to the JSON
subset the scraper's inputs use (integer numbers, basic string escapes).
`none` models `json.JSONDecodeError`; trailing non-whitespace is an
error, as in `json.loads`. -/
def jsonParse (s : Str) : Option JsonVal :=
  match jsonParseVal (2 * s.length + 2) s with
  | some (v, rest) => if (jsonSkipWs rest).isEmpty then some v else none
  | none => none

/-- The Unicode replacement character U+FFFD substituted by
`errors="replace"` decoding. -/
def replChar : Char := Char.ofNat 0xFFFD

/-- UTF-8 continuation byte test. -/
def isCont (b : Nat) : Bool := 128 ≤ b && b < 192

/-- Model of `bytes.decode("utf-8", errors="replace")`: well-formed
sequences decode to their scalar value; an ill-formed lead byte or an
incomplete sequence yields one replacement character and decoding
resumes (Python may emit one replacement per ill-formed byte of a
maximal subpart; the claims exercise only well-formed input, where the
two agree exactly). -/
def utf8DecodeGo : Nat → List Nat → Str
  | 0, _ => []
  | _ + 1, [] => []
  | fuel + 1, b :: rest =>
    if b < 128 then Char.ofNat b :: utf8DecodeGo fuel rest
    else if 194 ≤ b && b ≤ 223 then
      match rest with
      | b2 :: rest2 =>
        if isCont b2 then
          Char.ofNat ((b - 192) * 64 + (b2 - 128)) :: utf8DecodeGo fuel rest2
        else replChar :: utf8DecodeGo fuel (b2 :: rest2)
      | [] => [replChar]
    else if 224 ≤ b && b ≤ 239 then
      match rest with
      | b2 :: b3 :: rest3 =>
        let cp := (b - 224) * 4096 + (b2 - 128) * 64 + (b3 - 128)
        if isCont b2 && isCont b3 && 2048 ≤ cp && (cp < 55296 || 57343 < cp) then
          Char.ofNat cp :: utf8DecodeGo fuel rest3
        else replChar :: utf8DecodeGo fuel (b2 :: b3 :: rest3)
      | [b2] => replChar :: utf8DecodeGo fuel [b2]
      | [] => [replChar]
    else if 240 ≤ b && b ≤ 244 then
      match rest with
      | b2 :: b3 :: b4 :: rest4 =>
        let cp := (b - 240) * 262144 + (b2 - 128) * 4096 + (b3 - 128) * 64 + (b4 - 128)
        if isCont b2 && isCont b3 && isCont b4 && 65536 ≤ cp && cp ≤ 1114111 then
          Char.ofNat cp :: utf8DecodeGo fuel rest4
        else replChar :: utf8DecodeGo fuel (b2 :: b3 :: b4 :: rest4)
      | [b2, b3] => replChar :: utf8DecodeGo fuel [b2, b3]
      | [b2] => replChar :: utf8DecodeGo fuel [b2]
      | [] => [replChar]
    else replChar :: utf8DecodeGo fuel rest

/-- Decoding with replacement, with fuel fixed at the byte count (each
step consumes at least one byte, so the fuel never runs out). -/
def utf8DecodeReplace (l : List Nat) : Str := utf8DecodeGo l.length l

/-- Literal `"charset="` of the regex `charset=([^\s;]+)` in
`_parse_payload` line 91. -/
def charsetLit : Str := "charset=".data

/-- Match of `charset=([^\s;]+)` anchored at index `i`: the literal
followed by a nonempty run of non-whitespace, non-semicolon characters
(the captured group). -/
def charsetTokenAt (ct : Str) (i : Nat) : Option Str :=
  if List.isPrefixOf charsetLit (ct.drop i) then
    let tok := (ct.drop (i + charsetLit.length)).takeWhile
      (fun c => ¬ (isPyWs c || c == ';'))
    if tok.isEmpty then none else some tok
  else none

/-- `re.search(r"charset=([^\s;]+)", content_type)` from `_parse_payload`
line 91: the captured charset token of the leftmost match, if any. -/
def findCharset (ct : Str) : Option Str :=
  (List.range (ct.length + 1)).findSome? (charsetTokenAt ct)

/-- Spellings Python's codec registry resolves to UTF-8. -/
def utf8Names : List Str := ["utf-8".data, "utf8".data, "utf_8".data, "u8".data]

/-- Spellings Python's codec registry resolves to ASCII. -/
def asciiNames : List Str := ["ascii".data, "us-ascii".data, "us_ascii".data, "646".data]

/-- Spellings Python's codec registry resolves to Latin-1. -/
def latinNames : List Str :=
  ["latin-1".data, "latin1".data, "latin_1".data, "iso-8859-1".data,
   "iso8859-1".data, "8859".data, "cp819".data, "latin".data, "l1".data]

/-- The fault `bytes.decode` can raise when called with
`errors="replace"`: an unrecognized codec name (`LookupError`).  With
replacement enabled, malformed bytes never raise. -/
inductive PyError : Type where
  | lookupError
deriving DecidableEq, Repr

/-- Model of `payload.decode(encoding, errors="replace")` (scraper.py
line 95), restricted to the codecs the scraper's inputs name; every
other codec name behaves as unrecognized, which is exactly the case the
code's `except LookupError` fallback handles. -/
def pyDecodeReplace (enc : Str) (payload : List Nat) : Except PyError Str :=
  let e := toLowerStr enc
  if utf8Names.contains e then Except.ok (utf8DecodeReplace payload)
  else if asciiNames.contains e then
    Except.ok (payload.map (fun b => if b < 128 then Char.ofNat b else replChar))
  else if latinNames.contains e then
    Except.ok (payload.map (fun b => if b < 256 then Char.ofNat b else replChar))
  else Except.error PyError.lookupError

/-- The encoding `_parse_payload` selects (line 92): the charset token
of the (already lowercased) content type, else `"utf-8"`. -/
def encodingOf (ctLower : Str) : Str := (findCharset ctLower).getD "utf-8".data

/-- Embedding of the decode step of `_parse_payload` (scraper.py lines
91-98): decode with the declared charset; on `LookupError` fall back to
UTF-8 with replacement. -/
def decodeStep (payload : List Nat) (ctLower : Str) : Str :=
  match pyDecodeReplace (encodingOf ctLower) payload with
  | Except.ok t => t
  | Except.error _ => utf8DecodeReplace payload

/-- The decode step of `_parse_payload` viewed at the error level: the
body of the `try` block together with its `except LookupError` handler,
so that an uncaught fault would appear as `Except.error`. -/
def decodePayloadE (payload : List Nat) (ctLower : Str) : Except PyError Str :=
  match pyDecodeReplace (encodingOf ctLower) payload with
  | Except.ok t => Except.ok t
  | Except.error PyError.lookupError => Except.ok (utf8DecodeReplace payload)

/-- Python `str.splitlines()` over the line seps the scraper's inputs
contain (`\n`, `\r`, `\r\n`); a trailing terminator produces no empty
final line. -/
def splitLinesGo : Str → Str → List Str
  | [], acc => [acc.reverse]
  | '\r' :: '\n' :: rest, acc =>
    (match rest with
     | [] => [acc.reverse]
     | _ => acc.reverse :: splitLinesGo rest [])
  | '\r' :: rest, acc =>
    (match rest with
     | [] => [acc.reverse]
     | _ => acc.reverse :: splitLinesGo rest [])
  | '\n' :: rest, acc =>
    (match rest with
     | [] => [acc.reverse]
     | _ => acc.reverse :: splitLinesGo rest [])
  | c :: rest, acc => splitLinesGo rest (c :: acc)

/-- Python `str.splitlines()`; the empty string has no lines. -/
def splitLines : Str → List Str
  | [] => []
  | s => splitLinesGo s []

/-- One CSV record split on commas, for the `csv` module model
(restricted to the quote-free records the scraper's inputs contain;
a quote character inside a field is literal, as in `csv` when the field
does not start with one). -/
def splitComma : Str → List Str
  | [] => [[]]
  | c :: rest =>
    if c == ',' then [] :: splitComma rest
    else
      match splitComma rest with
      | f :: fs => (c :: f) :: fs
      | [] => [[c]]

/-- Embedding of the CSV branch of `_parse_payload` (scraper.py lines
121-124): `csv.DictReader` over the text's lines.  No lines means no
fieldnames, an error; otherwise the first line is the header and each
further line becomes one row keyed by the header fields (model
restricted to records with equally many fields as the header, the only
shape the claims reach). -/
def csvBranch (text : Str) : Except Err (List Row) :=
  match splitLines text with
  | [] => Except.error Err.csvMissingHeaders
  | header :: dataLines =>
    let fields := splitComma header
    Except.ok (dataLines.map (fun line =>
      (fields.zip (splitComma line)).map (fun kv => (kv.fst, JsonVal.str kv.snd))))

/-- Literal `"xml"` of the sniffing rule, `_parse_payload` line 103. -/
def xmlLit : Str := "xml".data

/-- Literal `"<xml"` of the sniffing rule. -/
def ltXmlLit : Str := "<xml".data

/-- Literal `"json"` of the sniffing rule, `_parse_payload` line 106. -/
def jsonLit : Str := "json".data

/-- The XML path's string-valued attribute rows injected into the
`Dict[str, Any]` row type `_parse_payload` returns. -/
def xmlRowsToRows (rs : List (List (Str × Str))) : List Row :=
  rs.map (fun r => r.map (fun kv => (kv.fst, JsonVal.str kv.snd)))

/-- Embedding of `SwimMeetScraper._parse_payload` (scraper.py lines
86-124): lowercase the content type, decode the bytes, then dispatch —
XML when the content type contains `xml` or the lowercased text contains
`<xml` or `<results`; else JSON when the content type contains `json` or
the left-stripped text starts with a brace or bracket; else CSV. -/
def parsePayload (payload : List Nat) (contentType : Str) : Except Err (List Row) :=
  let ct := toLowerStr contentType
  let text := decodeStep payload ct
  let textLc := toLowerStr text
  if strContains ct xmlLit || strContains textLc ltXmlLit ||
      strContains textLc resultsOpenLit then
    match parseXmlContent text with
    | Except.ok rows => Except.ok (xmlRowsToRows rows)
    | Except.error e => Except.error e
  else if strContains ct jsonLit || (lstripWs text).head? == some '{' ||
      (lstripWs text).head? == some '[' then
    match jsonParse text with
    | none => Except.error Err.notValidJson
    | some v => jsonBranch v
  else csvBranch text

/-- Literal `"text/html"`, the content type `fetch_event` fixes for the
reparse of rendered output (scraper.py line 209). -/
def textHtmlLit : Str := "text/html".data

/-- Embedding of the parse-and-escalate portion of
`SwimMeetScraper.fetch_event` (scraper.py lines 199-214), from the point
the transport has produced the response: parse the payload; on a
`SwimMeetScraperError`, either log and return the empty batch when
`render_js` is off, or invoke the renderer collaborator once (`rendered`
is its outcome: the page bytes, or the error `_fetch_with_playwright`
raises, which propagates) and reparse its output as `text/html`, logging
and returning the empty batch if that also fails.  The second component
counts renderer invocations. -/
def fetchEventParse (payload : List Nat) (contentType : Str) (renderJs : Bool)
    (rendered : Except Err (List Nat)) : Except Err (List Row) × Nat :=
  match parsePayload payload contentType with
  | Except.ok rows => (Except.ok rows, 0)
  | Except.error _ =>
    if renderJs = false then (Except.ok [], 0)
    else
      match rendered with
      | Except.error e => (Except.error e, 1)
      | Except.ok rbytes =>
        match parsePayload rbytes textHtmlLit with
        | Except.ok rows => (Except.ok rows, 1)
        | Except.error _ => (Except.ok [], 1)

/-- Encoding of the ASCII texts used in concrete scenarios as the bytes
`str.encode("utf-8")` produces (identical to the code points below
128). -/
def encodeAscii (s : Str) : List Nat := s.map Char.toNat

/-- Mapping test `isinstance(row, dict)` on a JSON value. -/
def isObjJ : JsonVal → Bool
  | JsonVal.obj _ => true
  | _ => false

/-- Field list of a JSON object (empty for non-objects; used only under
an all-objects hypothesis). -/
def objFields : JsonVal → Row
  | JsonVal.obj fields => fields
  | _ => []

/-- Body of the spec's end-to-end scenario: an HTML page wrapping an
`<xml><results>` fragment with one fully attributed `result` element. -/
def scenarioHtmlBody : Str := "<html><xml><results><result rk=\"1\" nm=\"Krys Gorski\" gr=\"Sr\" sc=\"WAN\" ti=\"48.92\" mt=\"nedistrict24\" auto=\"yes\"></result></results></xml></html>".data

/-- Body with the results fragment HTML-entity-escaped inside a script
literal (the repository test `test_parse_html_escaped_xml_content`). -/
def escapedScriptBody : Str := "<html><script>var xml = \"&lt;xml&gt;&lt;results&gt;&lt;result rk='1' nm='Encoded Swimmer' sc='ABC' ti='49.99' mt='encoded' auto='yes' /&gt;&lt;/results&gt;&lt;/xml&gt;\";</script></html>".data

/-- A bare results document whose single `result` element carries six of
the seven canonical attributes (`auto` is absent), taken from the second
row of the repository test `test_parse_xml_results_block`. -/
def janeDoc : Str := "<results><result rk=\"2\" nm=\"Jane Doe\" gr=\"Jr\" sc=\"SOM\" ti=\"50.10\" mt=\"nedistrict24\"></result></results>".data

/-- The attribute list the `janeDoc` element carries (no `auto`). -/
def janeRow : List (Str × Str) :=
  [("rk".data, "2".data), ("nm".data, "Jane Doe".data), ("gr".data, "Jr".data),
   ("sc".data, "SOM".data), ("ti".data, "50.10".data), ("mt".data, "nedistrict24".data)]

/-- A results document whose only result element is spelled `RESULT`,
from the repository test `test_parse_xml_with_uppercase_tags`. -/
def upperDoc : Str := "<results><RESULT rk=\"1\" nm=\"Swimmer One\" gr=\"Sr\" sc=\"AAA\" ti=\"50.00\" mt=\"meet\"></RESULT></results>".data

/-- A document whose root element itself is a `result`. -/
def bareResultDoc : Str := "<result rk=\"1\"/>".data

/-- An HTML-wrapped XML shell with an empty results block, the payload
of the repository tests `test_render_js_fallback_on_parse_error` and
`test_render_js_disabled_raises_parse_error`. -/
def emptyResultsBody : Str := "<html><xml><results></results></xml></html>".data

/-- A well-formed XML document with zero result elements. -/
def noResultDoc : Str := "<xml><results></results></xml>".data

/-- An uppercase HTML opening, for the case-insensitive `<html` check. -/
def upperHtmlDoc : Str := "<HTML>junk".data

/-- A JSON object row source with two object rows. -/
def jsonItems : List JsonVal :=
  [JsonVal.obj [("rk".data, JsonVal.str "1".data)],
   JsonVal.obj [("nm".data, JsonVal.str "Jane".data)]]

/-- A JSON document fields list shaped like the scraper's
`{"results": [...]}` input. -/
def jsonFields : List (Str × JsonVal) :=
  [("results".data, JsonVal.arr jsonItems)]

/-- A content type naming a charset outside the modelled codec
registry. -/
def unknownCharsetCt : Str := "text/html; charset=x-user-defined".data

theorem ensureAll_all_obj (items : List JsonVal) (h : ∀ x ∈ items, isObjJ x = true) :
    ensureAll items = Except.ok (items.map objFields) := by
  induction items with
  | nil => rfl
  | cons x xs ih =>
    have hx : isObjJ x = true := h x (List.mem_cons_self x xs)
    cases x with
    | obj fields =>
      have ht : ensureAll xs = Except.ok (xs.map objFields) :=
        ih (fun y hy => h y (List.mem_cons_of_mem _ hy))
      simp [ensureAll, ensureRowDict, ht, objFields]
    | null => simp [isObjJ] at hx
    | bool b => simp [isObjJ] at hx
    | num n => simp [isObjJ] at hx
    | str s => simp [isObjJ] at hx
    | arr l => simp [isObjJ] at hx

theorem map_objFields_cancel (items : List JsonVal) (h : ∀ x ∈ items, isObjJ x = true) :
    (items.map objFields).map JsonVal.obj = items := by
  induction items with
  | nil => rfl
  | cons x xs ih =>
    have hx : isObjJ x = true := h x (List.mem_cons_self x xs)
    have ht := ih (fun y hy => h y (List.mem_cons_of_mem _ hy))
    cases x with
    | obj fields => simp [objFields, ht]
    | null => simp [isObjJ] at hx
    | bool b => simp [isObjJ] at hx
    | num n => simp [isObjJ] at hx
    | str s => simp [isObjJ] at hx
    | arr l => simp [isObjJ] at hx

theorem ensureAll_nonobj (items : List JsonVal) (h : ∃ x ∈ items, isObjJ x = false) :
    ensureAll items = Except.error Err.rowNotMapping := by
  induction items with
  | nil => simp at h
  | cons x xs ih =>
    obtain ⟨y, hy, hny⟩ := h
    cases x with
    | obj fields =>
      rcases List.mem_cons.mp hy with h1 | h2
      · rw [h1] at hny
        simp [isObjJ] at hny
      · simp [ensureAll, ensureRowDict, ih ⟨y, h2, hny⟩]
    | null => simp [ensureAll, ensureRowDict]
    | bool b => simp [ensureAll, ensureRowDict]
    | num n => simp [ensureAll, ensureRowDict]
    | str s => simp [ensureAll, ensureRowDict]
    | arr l => simp [ensureAll, ensureRowDict]

/-- C6: an input on the XML path that parses as well-formed XML with
zero result elements yields the `EmptyPayload` error, and the XML path
never returns a successful empty row batch. -/
theorem xml_zero_results_never_empty_success :
    (∀ (text : Str) (rows : List (List (Str × Str))),
        parseXmlContent text = Except.ok rows → rows ≠ []) ∧
    (∀ (text : Str) (root : XElem),
        strContains (toLowerStr text) htmlLit = false →
        xmlFromString (selectXmlText text) = some root →
        resultRows root = [] →
        parseXmlContent text = Except.error Err.emptyPayload) := by
  constructor
  · intro text rows h
    by_cases hh : strContains (toLowerStr text) htmlLit
    · simp [parseXmlContent, hh] at h
    · cases hx : xmlFromString (selectXmlText text) with
      | none => simp [parseXmlContent, hh, hx] at h
      | some root =>
        by_cases he : (resultRows root).isEmpty
        · simp [parseXmlContent, hh, hx, he] at h
        · simp [parseXmlContent, hh, hx, he] at h
          intro hcon
          rw [hcon] at h
          simp [List.isEmpty_iff] at he
          exact he h
  · intro text root hh hx hr
    simp [parseXmlContent, hh, hx, hr]

/-- Witness for C6 at a concrete well-formed document with zero result
elements. -/
theorem xml_zero_results_never_empty_success_witness :
    parseXmlContent noResultDoc = Except.error Err.emptyPayload :=
  xml_zero_results_never_empty_success.2 noResultDoc (XElem.mk "results".data [] [])
    (by rfl) (by rfl) (by rfl)

/-- C10: any text containing `<html` (case-insensitively) makes the XML
extractor fail with the `Got HTML instead of XML` error, so it can never
yield rows through static XML parsing. -/
theorem html_text_fails_xml_extraction :
    ∀ text : Str, strContains (toLowerStr text) htmlLit = true →
      parseXmlContent text = Except.error Err.gotHtml ∧
      ∀ rows, parseXmlContent text ≠ Except.ok rows := by
  intro text h
  have h1 : parseXmlContent text = Except.error Err.gotHtml := by
    simp [parseXmlContent, h]
  refine ⟨h1, fun rows hc => ?_⟩
  rw [h1] at hc
  exact Except.noConfusion hc

/-- Witness for C10 at an uppercase HTML opening. -/
theorem html_text_fails_xml_extraction_witness :
    parseXmlContent upperHtmlDoc = Except.error Err.gotHtml :=
  (html_text_fails_xml_extraction upperHtmlDoc (by rfl)).1

/-- C7: when the original body fails to parse and rendering is
permitted, the renderer collaborator is invoked exactly once — also when
the rendered output fails to parse again — and no fetch ever invokes it
twice. -/
theorem render_invoked_exactly_once :
    ∀ (payload : List Nat) (ct : Str) (rendered : Except Err (List Nat)),
      ((∃ e, parsePayload payload ct = Except.error e) →
        (fetchEventParse payload ct true rendered).2 = 1) ∧
      (∀ renderJs : Bool, (fetchEventParse payload ct renderJs rendered).2 ≤ 1) := by
  intro payload ct rendered
  constructor
  · rintro ⟨e, he⟩
    unfold fetchEventParse
    rw [he]
    cases rendered with
    | error e2 => rfl
    | ok rbytes =>
      simp only []
      cases parsePayload rbytes textHtmlLit <;> rfl
  · intro renderJs
    unfold fetchEventParse
    cases parsePayload payload ct with
    | ok rows => simp
    | error e =>
      cases renderJs with
      | false => simp
      | true =>
        cases rendered with
        | error e2 => simp
        | ok rbytes => cases hp : parsePayload rbytes textHtmlLit <;> simp [hp]

/-- Witness for C7 at a failing payload whose rendered output fails
again. -/
theorem render_invoked_exactly_once_witness :
    (fetchEventParse (encodeAscii emptyResultsBody) "text/xml".data true
      (Except.ok (encodeAscii emptyResultsBody))).2 = 1 :=
  (render_invoked_exactly_once (encodeAscii emptyResultsBody) "text/xml".data
    (Except.ok (encodeAscii emptyResultsBody))).1 ⟨Err.gotHtml, by rfl⟩

/-- C8: a JSON object whose `results` key holds an array is returned
row-for-row when every element is an object (pass-through equality,
no canonical-field defaulting), and fails as a whole batch with the
row-not-mapping error when any element is not an object. -/
theorem json_results_passthrough :
    ∀ (fields : List (Str × JsonVal)) (items : List JsonVal),
      objLookup fields resultsKey = some (JsonVal.arr items) →
      ((∀ x ∈ items, isObjJ x = true) →
        jsonBranch (JsonVal.obj fields) = Except.ok (items.map objFields) ∧
        (items.map objFields).map JsonVal.obj = items) ∧
      ((∃ x ∈ items, isObjJ x = false) →
        jsonBranch (JsonVal.obj fields) = Except.error Err.rowNotMapping) := by
  intro fields items hlook
  constructor
  · intro hall
    exact ⟨by simp [jsonBranch, hlook, ensureAll_all_obj items hall],
      map_objFields_cancel items hall⟩
  · intro hbad
    simp [jsonBranch, hlook, ensureAll_nonobj items hbad]

/-- Witness for C8 at a concrete two-row object document. -/
theorem json_results_passthrough_witness :
    jsonBranch (JsonVal.obj jsonFields) = Except.ok (jsonItems.map objFields) ∧
    (jsonItems.map objFields).map JsonVal.obj = jsonItems :=
  (json_results_passthrough jsonFields jsonItems (by rfl)).1 (by decide)

/-- C9: the decode step never surfaces an error — its error-level view
always returns the text `decodeStep` produces — and an unrecognized
charset degrades to UTF-8 decoding with replacement characters. -/
theorem decoder_never_raises :
    ∀ (payload : List Nat) (ctLower : Str),
      decodePayloadE payload ctLower = Except.ok (decodeStep payload ctLower) ∧
      (pyDecodeReplace (encodingOf ctLower) payload = Except.error PyError.lookupError →
        decodeStep payload ctLower = utf8DecodeReplace payload) := by
  intro payload ct
  constructor
  · unfold decodePayloadE decodeStep
    cases h : pyDecodeReplace (encodingOf ct) payload with
    | ok t => simp [h]
    | error e => cases e; simp [h]
  · intro h
    unfold decodeStep
    rw [h]

/-- Witness for C9 at a non-ASCII byte under an unmodelled charset. -/
theorem decoder_never_raises_witness :
    decodePayloadE [200] unknownCharsetCt = Except.ok (decodeStep [200] unknownCharsetCt) ∧
    decodeStep [200] unknownCharsetCt = utf8DecodeReplace [200] :=
  ⟨(decoder_never_raises [200] unknownCharsetCt).1,
   (decoder_never_raises [200] unknownCharsetCt).2 (by rfl)⟩

/-- C1 (code evaluation at the failing input): the XML path returns the
element's attributes verbatim — the `janeDoc` element lacks `auto`, and
the returned row has no `auto` key at all instead of the canonical empty
string the specification and the repository's own test require. -/
theorem xml_row_omits_absent_canonical_field :
    parseXmlContent janeDoc = Except.ok [janeRow] ∧
    List.lookup "auto".data janeRow = none := ⟨by rfl, by rfl⟩

/-- C2 (code evaluation at the failing input): on a parse failure
`fetch_event` returns the empty batch without raising, under both
settings of the only flag the caller can select (`render_js`); no strict
mode exists, contrary to the specification and to the repository's own
test `test_render_js_disabled_raises_parse_error`. -/
theorem fetch_event_never_raises_on_parse_failure :
    fetchEventParse (encodeAscii emptyResultsBody) textHtmlLit false
      (Except.ok []) = (Except.ok [], 0) ∧
    fetchEventParse (encodeAscii emptyResultsBody) textHtmlLit true
      (Except.ok (encodeAscii emptyResultsBody)) = (Except.ok [], 1) := ⟨by rfl, by rfl⟩

set_option maxRecDepth 16384 in
/-- C3 (code evaluation at the failing input): the spec's end-to-end
scenario body, served as `text/html`, is routed to the XML path and
rejected by the `<html` guard before the `<results>` fragment search can
run, instead of yielding the one-row success the claim states. -/
theorem html_wrapped_scenario_is_error :
    parsePayload (encodeAscii scenarioHtmlBody) textHtmlLit =
      Except.error Err.gotHtml := by rfl

set_option maxRecDepth 16384 in
/-- C4 (code evaluation at the failing input): the HTML-entity-escaped
script payload is never unescaped; it fails every XML/JSON sniff, falls
through to the CSV branch, and yields an empty success instead of the
one extracted row the claim states. -/
theorem escaped_xml_scenario_yields_no_rows :
    parsePayload (encodeAscii escapedScriptBody) textHtmlLit =
      Except.ok [] := by rfl

/-- C5 (code evaluation at the failing inputs): `findall(".//result")`
is case-sensitive and excludes the root, so a document whose only result
element is spelled `RESULT`, and a document whose root element itself is
a `result`, both yield the empty-payload error instead of rows. -/
theorem uppercase_and_root_results_not_collected :
    parseXmlContent upperDoc = Except.error Err.emptyPayload ∧
    parseXmlContent bareResultDoc = Except.error Err.emptyPayload := ⟨by rfl, by rfl⟩
